import Mathlib

/-!
Shallow embedding of the MoveMate inventory store (src/server/storage.ts and
the shared schema) and proofs about its box lifecycle, position/status
coupling, activity log and owner-deletion guard.

Modelling conventions:
* JavaScript `Map` objects are lists kept in insertion order; `map.set` on an
  existing key replaces the value in place, `map.values()` yields insertion
  order.
* Timestamps (`new Date()`) are a `Nat` parameter `now` passed to each
  operation.
* `BoxStatus` values are the runtime strings; TypeScript `as BoxStatus` casts
  are no-ops at runtime, so fields typed `BoxStatus` are modelled as `String`.
* The stable JavaScript `Array.prototype.sort` with comparator
  `(a, b) => keyOf b - keyOf a`, and the SQL `ORDER BY key DESC` of the
  database backend, are both modelled as the stable insertion sort
  `sortDescBy`.
* The database backend enforces the schema's foreign key
  `activities.box_id REFERENCES boxes.id` on every activity insert; an insert
  that violates it is a `DbResult.fkViolation` (the thrown error).
-/

/-- A truck-grid position: depth, horizontal and vertical axis values. -/
structure BoxPosition where
  depth : String
  horizontal : String
  vertical : String
deriving DecidableEq, Repr

/-- A box row, as in the `boxes` table of the shared schema. -/
structure Box where
  id : Nat
  boxNumber : Nat
  owner : String
  room : String
  contents : String
  status : String
  position : Option BoxPosition
  createdAt : Nat
  updatedAt : Nat
deriving DecidableEq, Repr

/-- An activity-log row, as in the `activities` table. -/
structure Activity where
  id : Nat
  boxId : Option Nat
  type : String
  description : String
  timestamp : Nat
deriving DecidableEq, Repr

/-- A QR-code row, as in the `qr_codes` table. -/
structure QrCode where
  id : Nat
  boxId : Nat
  data : String
  createdAt : Nat
deriving DecidableEq, Repr

/-- An owner row, as in the `owners` table. -/
structure Owner where
  id : Nat
  name : String
  color : String
  createdAt : Nat
  updatedAt : Nat
deriving DecidableEq, Repr

/-- The payload of `createBox` (`InsertBox`).  The status field is an
`Option String` because the code defends against a missing or null status
with a `typeof boxData.status === 'string'` check. -/
structure InsertBox where
  boxNumber : Nat
  owner : String
  room : String
  contents : String
  status : Option String
deriving DecidableEq, Repr

/-- The payload of `updateBox` (`Partial<InsertBox>`): every field optional,
a missing field is `undefined` and is not merged. -/
structure BoxUpdate where
  boxNumber : Option Nat
  owner : Option String
  room : Option String
  contents : Option String
  status : Option String
deriving DecidableEq, Repr

/-- The six valid `BoxStatus` enum strings, in declaration order
(`Object.values(BoxStatus)`). -/
def boxStatusValues : List String :=
  ["packed", "staging", "loaded", "out", "delivered", "unpacked"]

/-- The status coercion performed by `createBox` in both backends: a string
status is kept when it is one of the six enum values, everything else
(including a missing status) falls back to `"packed"`. -/
def coerceStatus : Option String → String
  | some s => if boxStatusValues.contains s then s else "packed"
  | none => "packed"

/-- Stable insertion step for a descending sort by `key`: the new element
`a`, which precedes the already-sorted elements in the original list, is
placed before the first element whose key does not exceed `a`'s. -/
def insertDescBy (key : α → Nat) (a : α) : List α → List α
  | [] => [a]
  | b :: l => if key b ≤ key a then a :: b :: l else b :: insertDescBy key a l

/-- Stable sort, descending by `key`: the model of JavaScript's stable
`sort((a, b) => key b - key a)` and of SQL `ORDER BY key DESC`. -/
def sortDescBy (key : α → Nat) (l : List α) : List α :=
  l.foldr (insertDescBy key) []

theorem insertDescBy_perm (key : α → Nat) (a : α) (l : List α) :
    (insertDescBy key a l).Perm (a :: l) := by
  induction l with
  | nil => simp [insertDescBy]
  | cons b l ih =>
    by_cases h : key b ≤ key a
    · simp [insertDescBy, h]
    · simp only [insertDescBy, if_neg h]
      exact (List.Perm.cons b ih).trans (List.Perm.swap a b l)

theorem sortDescBy_perm (key : α → Nat) (l : List α) :
    (sortDescBy key l).Perm l := by
  induction l with
  | nil => simp [sortDescBy]
  | cons a l ih => exact (insertDescBy_perm key a _).trans (List.Perm.cons a ih)

theorem mem_insertDescBy {key : α → Nat} {a x : α} {l : List α} :
    x ∈ insertDescBy key a l ↔ x = a ∨ x ∈ l := by
  rw [(insertDescBy_perm key a l).mem_iff]
  simp

theorem insertDescBy_sorted (key : α → Nat) (a : α) (l : List α)
    (h : l.Pairwise (fun x y => key y ≤ key x)) :
    (insertDescBy key a l).Pairwise (fun x y => key y ≤ key x) := by
  induction l with
  | nil => simp [insertDescBy]
  | cons b l ih =>
    rcases List.pairwise_cons.mp h with ⟨hb, hl⟩
    by_cases hk : key b ≤ key a
    · simp only [insertDescBy, if_pos hk]
      refine List.pairwise_cons.mpr ⟨?_, h⟩
      intro c hc
      rcases List.mem_cons.mp hc with rfl | hc
      · exact hk
      · exact le_trans (hb c hc) hk
    · simp only [insertDescBy, if_neg hk]
      refine List.pairwise_cons.mpr ⟨?_, ih hl⟩
      intro c hc
      rcases mem_insertDescBy.mp hc with rfl | hc
      · exact le_of_not_le hk
      · exact hb c hc

theorem sortDescBy_sorted (key : α → Nat) (l : List α) :
    (sortDescBy key l).Pairwise (fun x y => key y ≤ key x) := by
  induction l with
  | nil => simp [sortDescBy]
  | cons a l ih => exact insertDescBy_sorted key a _ ih

/-- The stable-order relation for a descending sort by `key` with secondary
index `idx`: earlier means strictly larger key, or equal key and strictly
smaller index. -/
def StableDescAt (key idx : α → Nat) (x y : α) : Prop :=
  key y < key x ∨ (key x = key y ∧ idx x < idx y)

theorem insertDescBy_stable (key idx : α → Nat) (a : α) (l : List α)
    (ha : ∀ b ∈ l, idx a < idx b)
    (h : l.Pairwise (StableDescAt key idx)) :
    (insertDescBy key a l).Pairwise (StableDescAt key idx) := by
  induction l with
  | nil => simp [insertDescBy]
  | cons b l ih =>
    rcases List.pairwise_cons.mp h with ⟨hb, hl⟩
    by_cases hk : key b ≤ key a
    · simp only [insertDescBy, if_pos hk]
      refine List.pairwise_cons.mpr ⟨?_, h⟩
      intro c hc
      have hkc : key c ≤ key a := by
        rcases List.mem_cons.mp hc with rfl | hc2
        · exact hk
        · rcases hb c hc2 with hlt | ⟨heq, _⟩
          · exact le_trans (le_of_lt hlt) hk
          · exact le_trans (le_of_eq heq.symm) hk
      rcases lt_or_eq_of_le hkc with hlt | heq
      · exact Or.inl hlt
      · exact Or.inr ⟨heq.symm, ha c hc⟩
    · simp only [insertDescBy, if_neg hk]
      have ha' : ∀ c ∈ l, idx a < idx c := fun c hc => ha c (List.mem_cons_of_mem b hc)
      refine List.pairwise_cons.mpr ⟨?_, ih ha' hl⟩
      intro c hc
      rcases mem_insertDescBy.mp hc with rfl | hc
      · exact Or.inl (lt_of_not_le hk)
      · exact hb c hc

theorem sortDescBy_stable (key idx : α → Nat) (l : List α)
    (h : l.Pairwise (fun x y => idx x < idx y)) :
    (sortDescBy key l).Pairwise (StableDescAt key idx) := by
  induction l with
  | nil => simp [sortDescBy]
  | cons a l ih =>
    rcases List.pairwise_cons.mp h with ⟨ha, hl⟩
    refine insertDescBy_stable key idx a _ ?_ (ih hl)
    intro b hb
    exact ha b ((sortDescBy_perm key l).mem_iff.mp hb)

/-- The state of the in-memory backend `MemStorage`: four insertion-ordered
maps and four monotonic id counters. -/
structure MemStorage where
  boxes : List Box
  activities : List Activity
  qrCodes : List QrCode
  owners : List Owner
  boxCounter : Nat
  activityCounter : Nat
  qrCodeCounter : Nat
  ownerCounter : Nat
deriving DecidableEq, Repr

/-- The freshly constructed `MemStorage` (all maps empty, counters 1). -/
def MemStorage.empty : MemStorage :=
  ⟨[], [], [], [], 1, 1, 1, 1⟩

namespace MemStorage

/-- Embedding of `MemStorage.getBoxes`: `Array.from(this.boxes.values())`,
the boxes in map insertion order, unsorted. -/
def getBoxes (st : MemStorage) : List Box :=
  st.boxes

/-- Embedding of `MemStorage.getBox`. -/
def getBox (st : MemStorage) (id : Nat) : Option Box :=
  st.boxes.find? (fun b => b.id == id)

/-- Embedding of `MemStorage.createActivity`: assigns the next activity id,
stamps `now`, appends to the activities map. -/
def createActivity (st : MemStorage) (boxId : Option Nat) (ty descr : String)
    (now : Nat) : Activity × MemStorage :=
  let a : Activity := ⟨st.activityCounter, boxId, ty, descr, now⟩
  (a, { st with activities := st.activities ++ [a],
                activityCounter := st.activityCounter + 1 })

/-- Embedding of `MemStorage.createBox`: assigns the next box id, coerces the
status, null position, both timestamps `now`, then appends a `"created"`
activity. -/
def createBox (st : MemStorage) (d : InsertBox) (now : Nat) : Box × MemStorage :=
  let id := st.boxCounter
  let box : Box :=
    { id := id, boxNumber := d.boxNumber, owner := d.owner, room := d.room,
      contents := d.contents, status := coerceStatus d.status,
      position := none, createdAt := now, updatedAt := now }
  let st1 := { st with boxes := st.boxes ++ [box], boxCounter := id + 1 }
  let r := st1.createActivity (some id) "created"
    ("Box #" ++ toString box.boxNumber ++ " created") now
  (box, r.2)

/-- Embedding of `MemStorage.updateBox`: merges exactly the fields that are
present (`!== undefined`) over the stored box — the status field is merged
as-is (the `as BoxStatus` cast does not validate) — bumps `updatedAt`, stores,
appends an `"updated"` activity. -/
def updateBox (st : MemStorage) (id : Nat) (d : BoxUpdate) (now : Nat) :
    Option Box × MemStorage :=
  match st.getBox id with
  | none => (none, st)
  | some box =>
    let updatedBox : Box :=
      { box with
        boxNumber := d.boxNumber.getD box.boxNumber,
        owner := d.owner.getD box.owner,
        room := d.room.getD box.room,
        contents := d.contents.getD box.contents,
        status := d.status.getD box.status,
        updatedAt := now }
    let st1 := { st with boxes := st.boxes.map (fun (b : Box) => if b.id == id then updatedBox else b) }
    let r := st1.createActivity (some id) "updated"
      ("Box #" ++ toString box.boxNumber ++ " updated") now
    (some updatedBox, r.2)

/-- The position triple as it appears in activity descriptions:
`depth-horizontal-vertical`. -/
def posTriple (p : BoxPosition) : String :=
  p.depth ++ "-" ++ p.horizontal ++ "-" ++ p.vertical

/-- Embedding of `MemStorage.updateBoxPosition`: sets the position
unconditionally; sets the status when the argument is supplied and truthy
(the spread `...(status ? { status } : {})`); bumps `updatedAt`; appends one
activity, of type `"loaded"` when the supplied status is `"loaded"` and
`"moved"` otherwise. -/
def updateBoxPosition (st : MemStorage) (id : Nat) (position : BoxPosition)
    (status : Option String) (now : Nat) : Option Box × MemStorage :=
  match st.getBox id with
  | none => (none, st)
  | some box =>
    let newStatus :=
      match status with
      | some s => if s = "" then box.status else s
      | none => box.status
    let updatedBox : Box :=
      { box with position := some position, status := newStatus, updatedAt := now }
    let st1 := { st with boxes := st.boxes.map (fun (b : Box) => if b.id == id then updatedBox else b) }
    let r :=
      if status == some "loaded" then
        st1.createActivity (some id) "loaded"
          ("Box #" ++ toString box.boxNumber ++ " loaded onto truck (" ++ posTriple position ++ ")") now
      else
        st1.createActivity (some id) "moved"
          ("Box #" ++ toString box.boxNumber ++ " moved to position " ++ posTriple position) now
    (some updatedBox, r.2)

/-- Embedding of `MemStorage.updateBoxStatus`: sets the status; clears the
position exactly when the prior status was `"loaded"` and the new one is not;
bumps `updatedAt`; appends one activity of type `status.toLowerCase()`. -/
def updateBoxStatus (st : MemStorage) (id : Nat) (status : String) (now : Nat) :
    Option Box × MemStorage :=
  match st.getBox id with
  | none => (none, st)
  | some box =>
    let shouldClearPosition := box.status = "loaded" && status != "loaded"
    let updatedBox : Box :=
      { box with status := status,
                 position := if shouldClearPosition then none else box.position,
                 updatedAt := now }
    let st1 := { st with boxes := st.boxes.map (fun (b : Box) => if b.id == id then updatedBox else b) }
    let r := st1.createActivity (some id) status.toLower
      ("Box #" ++ toString box.boxNumber ++ " marked as " ++ status) now
    (some updatedBox, r.2)

/-- Embedding of `MemStorage.deleteBox`: removes the box and its QR codes,
then appends a `"deleted"` activity referencing the removed id; an absent id
returns `false` and changes nothing. -/
def deleteBox (st : MemStorage) (id : Nat) (now : Nat) : Bool × MemStorage :=
  match st.getBox id with
  | none => (false, st)
  | some box =>
    let st1 := { st with boxes := st.boxes.filter (fun b => b.id != id),
                         qrCodes := st.qrCodes.filter (fun q => q.boxId != id) }
    let r := st1.createActivity (some id) "deleted"
      ("Box #" ++ toString box.boxNumber ++ " deleted") now
    (true, r.2)

/-- Embedding of `MemStorage.getActivities`: stable sort by timestamp
descending, then `limit ? activities.slice(0, limit) : activities` — note a
limit of `0` is falsy in JavaScript and behaves like no limit. -/
def getActivities (st : MemStorage) (limit : Option Nat) : List Activity :=
  let sorted := sortDescBy Activity.timestamp st.activities
  match limit with
  | none => sorted
  | some n => if n = 0 then sorted else sorted.take n

/-- Embedding of `MemStorage.getQrCode`. -/
def getQrCode (st : MemStorage) (id : Nat) : Option QrCode :=
  st.qrCodes.find? (fun q => q.id == id)

/-- Embedding of `MemStorage.getQrCodeByBoxId`. -/
def getQrCodeByBoxId (st : MemStorage) (boxId : Nat) : Option QrCode :=
  st.qrCodes.find? (fun q => q.boxId == boxId)

/-- Embedding of `MemStorage.createQrCode`. -/
def createQrCode (st : MemStorage) (boxId : Nat) (data : String) (now : Nat) :
    QrCode × MemStorage :=
  let q : QrCode := ⟨st.qrCodeCounter, boxId, data, now⟩
  (q, { st with qrCodes := st.qrCodes ++ [q], qrCodeCounter := st.qrCodeCounter + 1 })

/-- Embedding of `MemStorage.getOwners`. -/
def getOwners (st : MemStorage) : List Owner :=
  st.owners

/-- Embedding of `MemStorage.getOwner`. -/
def getOwner (st : MemStorage) (id : Nat) : Option Owner :=
  st.owners.find? (fun o => o.id == id)

/-- Embedding of `MemStorage.createOwner`. -/
def createOwner (st : MemStorage) (name color : String) (now : Nat) :
    Owner × MemStorage :=
  let o : Owner := ⟨st.ownerCounter, name, color, now, now⟩
  (o, { st with owners := st.owners ++ [o], ownerCounter := st.ownerCounter + 1 })

/-- Embedding of `MemStorage.updateOwner`: partial merge, bumps `updatedAt`. -/
def updateOwner (st : MemStorage) (id : Nat) (name color : Option String)
    (now : Nat) : Option Owner × MemStorage :=
  match st.getOwner id with
  | none => (none, st)
  | some o =>
    let updated : Owner :=
      { o with name := name.getD o.name, color := color.getD o.color, updatedAt := now }
    (some updated,
     { st with owners := st.owners.map (fun x => if x.id == id then updated else x) })

/-- Embedding of `MemStorage.deleteOwner`: refuses when any box's owner
field matches the owner's name case-insensitively (`toLowerCase` on both
sides); otherwise removes the owner. -/
def deleteOwner (st : MemStorage) (id : Nat) : Bool × MemStorage :=
  match st.getOwner id with
  | none => (false, st)
  | some owner =>
    let boxesWithOwner := st.boxes.filter
      (fun b => b.owner.toLower == owner.name.toLower)
    if boxesWithOwner.length > 0 then (false, st)
    else (true, { st with owners := st.owners.filter (fun o => o.id != id) })

end MemStorage

/-- The outcome of a database-backend operation: a normal result, or the
error thrown when an insert violates the `activities.box_id` foreign key. -/
inductive DbResult (α : Type) where
  | ok : α → DbResult α
  | fkViolation : DbResult α
deriving DecidableEq, Repr

/-- The state of the database backend `DatabaseStorage`: the four tables and
their serial-key counters. -/
structure DatabaseStorage where
  boxes : List Box
  activities : List Activity
  qrCodes : List QrCode
  owners : List Owner
  boxSerial : Nat
  activitySerial : Nat
  qrCodeSerial : Nat
  ownerSerial : Nat
deriving DecidableEq, Repr

/-- An empty database. -/
def DatabaseStorage.empty : DatabaseStorage :=
  ⟨[], [], [], [], 1, 1, 1, 1⟩

namespace DatabaseStorage

/-- Embedding of `DatabaseStorage.getBoxes`:
`db.select().from(boxes).orderBy(desc(boxes.updatedAt))`. -/
def getBoxes (st : DatabaseStorage) : List Box :=
  sortDescBy Box.updatedAt st.boxes

/-- Embedding of `DatabaseStorage.getBox`. -/
def getBox (st : DatabaseStorage) (id : Nat) : Option Box :=
  st.boxes.find? (fun b => b.id == id)

/-- Embedding of `DatabaseStorage.createActivity`: the insert into the
`activities` table, whose `box_id` column carries a foreign key to
`boxes.id` (shared schema) — an insert referencing an absent box id throws
a foreign-key violation. -/
def createActivity (st : DatabaseStorage) (boxId : Option Nat)
    (ty descr : String) (now : Nat) : DbResult (Activity × DatabaseStorage) :=
  let fkOk :=
    match boxId with
    | some bid => st.boxes.any (fun b => b.id == bid)
    | none => true
  if fkOk then
    let a : Activity := ⟨st.activitySerial, boxId, ty, descr, now⟩
    .ok (a, { st with activities := st.activities ++ [a],
                      activitySerial := st.activitySerial + 1 })
  else .fkViolation

/-- Embedding of `DatabaseStorage.createBox`: same status coercion as the
in-memory backend, null position, both timestamps `now`, serial id from the
database, then a `"created"` activity. -/
def createBox (st : DatabaseStorage) (d : InsertBox) (now : Nat) :
    DbResult Box × DatabaseStorage :=
  let id := st.boxSerial
  let box : Box :=
    { id := id, boxNumber := d.boxNumber, owner := d.owner, room := d.room,
      contents := d.contents, status := coerceStatus d.status,
      position := none, createdAt := now, updatedAt := now }
  let st1 := { st with boxes := st.boxes ++ [box], boxSerial := id + 1 }
  match st1.createActivity (some id) "created"
      ("Box #" ++ toString box.boxNumber ++ " created") now with
  | .ok (_, st2) => (.ok box, st2)
  | .fkViolation => (.fkViolation, st1)

/-- Embedding of `DatabaseStorage.updateBox`: reads the box, merges exactly
the provided fields (status merged as-is, the cast does not validate), sets
`updatedAt`, then an `"updated"` activity. -/
def updateBox (st : DatabaseStorage) (id : Nat) (d : BoxUpdate) (now : Nat) :
    DbResult (Option Box) × DatabaseStorage :=
  match st.getBox id with
  | none => (.ok none, st)
  | some box =>
    let updatedBox : Box :=
      { box with
        boxNumber := d.boxNumber.getD box.boxNumber,
        owner := d.owner.getD box.owner,
        room := d.room.getD box.room,
        contents := d.contents.getD box.contents,
        status := d.status.getD box.status,
        updatedAt := now }
    let st1 := { st with boxes := st.boxes.map (fun (b : Box) => if b.id == id then updatedBox else b) }
    match st1.createActivity (some id) "updated"
        ("Box #" ++ toString box.boxNumber ++ " updated") now with
    | .ok (_, st2) => (.ok (some updatedBox), st2)
    | .fkViolation => (.fkViolation, st1)

/-- Embedding of `DatabaseStorage.updateBoxPosition`: identical logic to the
in-memory backend, through the `boxes` table. -/
def updateBoxPosition (st : DatabaseStorage) (id : Nat) (position : BoxPosition)
    (status : Option String) (now : Nat) : DbResult (Option Box) × DatabaseStorage :=
  match st.getBox id with
  | none => (.ok none, st)
  | some box =>
    let newStatus :=
      match status with
      | some s => if s = "" then box.status else s
      | none => box.status
    let updatedBox : Box :=
      { box with position := some position, status := newStatus, updatedAt := now }
    let st1 := { st with boxes := st.boxes.map (fun (b : Box) => if b.id == id then updatedBox else b) }
    let r :=
      if status == some "loaded" then
        st1.createActivity (some id) "loaded"
          ("Box #" ++ toString box.boxNumber ++ " loaded onto truck (" ++ MemStorage.posTriple position ++ ")") now
      else
        st1.createActivity (some id) "moved"
          ("Box #" ++ toString box.boxNumber ++ " moved to position " ++ MemStorage.posTriple position) now
    match r with
    | .ok (_, st2) => (.ok (some updatedBox), st2)
    | .fkViolation => (.fkViolation, st1)

/-- Embedding of `DatabaseStorage.updateBoxStatus`: identical
position-clearing logic to the in-memory backend. -/
def updateBoxStatus (st : DatabaseStorage) (id : Nat) (status : String)
    (now : Nat) : DbResult (Option Box) × DatabaseStorage :=
  match st.getBox id with
  | none => (.ok none, st)
  | some box =>
    let shouldClearPosition := box.status = "loaded" && status != "loaded"
    let updatedBox : Box :=
      { box with status := status,
                 position := if shouldClearPosition then none else box.position,
                 updatedAt := now }
    let st1 := { st with boxes := st.boxes.map (fun (b : Box) => if b.id == id then updatedBox else b) }
    match st1.createActivity (some id) status.toLower
        ("Box #" ++ toString box.boxNumber ++ " marked as " ++ status) now with
    | .ok (_, st2) => (.ok (some updatedBox), st2)
    | .fkViolation => (.fkViolation, st1)

/-- Embedding of `DatabaseStorage.deleteBox`: deletes the box row, which
cascades to the box's activities and QR codes (`onDelete: 'cascade'` in the
shared schema), then attempts to insert a `"deleted"` activity referencing
the removed id. -/
def deleteBox (st : DatabaseStorage) (id : Nat) (now : Nat) :
    DbResult Bool × DatabaseStorage :=
  match st.getBox id with
  | none => (.ok false, st)
  | some box =>
    let st1 := { st with
      boxes := st.boxes.filter (fun b => b.id != id),
      activities := st.activities.filter (fun a => a.boxId != some id),
      qrCodes := st.qrCodes.filter (fun q => q.boxId != id) }
    match st1.createActivity (some id) "deleted"
        ("Box #" ++ toString box.boxNumber ++ " deleted") now with
    | .ok (_, st2) => (.ok true, st2)
    | .fkViolation => (.fkViolation, st1)

/-- Embedding of `DatabaseStorage.getActivities`:
`orderBy(desc(activities.timestamp))`, with `if (limit) query.limit(limit)` —
a limit of `0` is falsy and behaves like no limit. -/
def getActivities (st : DatabaseStorage) (limit : Option Nat) : List Activity :=
  let sorted := sortDescBy Activity.timestamp st.activities
  match limit with
  | none => sorted
  | some n => if n = 0 then sorted else sorted.take n

/-- Embedding of `DatabaseStorage.getQrCode`. -/
def getQrCode (st : DatabaseStorage) (id : Nat) : Option QrCode :=
  st.qrCodes.find? (fun q => q.id == id)

/-- Embedding of `DatabaseStorage.getQrCodeByBoxId`. -/
def getQrCodeByBoxId (st : DatabaseStorage) (boxId : Nat) : Option QrCode :=
  st.qrCodes.find? (fun q => q.boxId == boxId)

/-- Embedding of `DatabaseStorage.createQrCode`. -/
def createQrCode (st : DatabaseStorage) (boxId : Nat) (data : String)
    (now : Nat) : QrCode × DatabaseStorage :=
  let q : QrCode := ⟨st.qrCodeSerial, boxId, data, now⟩
  (q, { st with qrCodes := st.qrCodes ++ [q], qrCodeSerial := st.qrCodeSerial + 1 })

/-- Embedding of `DatabaseStorage.getOwners`. -/
def getOwners (st : DatabaseStorage) : List Owner :=
  sortDescBy Owner.updatedAt st.owners

/-- Embedding of `DatabaseStorage.getOwner`. -/
def getOwner (st : DatabaseStorage) (id : Nat) : Option Owner :=
  st.owners.find? (fun o => o.id == id)

/-- Embedding of `DatabaseStorage.createOwner`. -/
def createOwner (st : DatabaseStorage) (name color : String) (now : Nat) :
    Owner × DatabaseStorage :=
  let o : Owner := ⟨st.ownerSerial, name, color, now, now⟩
  (o, { st with owners := st.owners ++ [o], ownerSerial := st.ownerSerial + 1 })

/-- Embedding of `DatabaseStorage.updateOwner`. -/
def updateOwner (st : DatabaseStorage) (id : Nat) (name color : Option String)
    (now : Nat) : Option Owner × DatabaseStorage :=
  match st.getOwner id with
  | none => (none, st)
  | some o =>
    let updated : Owner :=
      { o with name := name.getD o.name, color := color.getD o.color, updatedAt := now }
    (some updated,
     { st with owners := st.owners.map (fun (x : Owner) => if x.id == id then updated else x) })

/-- Embedding of `DatabaseStorage.deleteOwner`: the in-use check is
`eq(boxes.owner, owner.name)` — an exact, case-sensitive SQL string
equality, unlike the in-memory backend's `toLowerCase` comparison. -/
def deleteOwner (st : DatabaseStorage) (id : Nat) : Bool × DatabaseStorage :=
  match st.getOwner id with
  | none => (false, st)
  | some owner =>
    let boxesWithOwner := st.boxes.filter (fun b => b.owner == owner.name)
    if boxesWithOwner.length > 0 then (false, st)
    else (true, { st with owners := st.owners.filter (fun o => o.id != id) })

end DatabaseStorage

/-- The box produced by a partial update: exactly the provided fields are
merged, the status as given, `updatedAt` bumped; id, position and createdAt
kept. -/
def mergedBox (box : Box) (d : BoxUpdate) (now : Nat) : Box :=
  { box with
    boxNumber := d.boxNumber.getD box.boxNumber,
    owner := d.owner.getD box.owner,
    room := d.room.getD box.room,
    contents := d.contents.getD box.contents,
    status := d.status.getD box.status,
    updatedAt := now }

/-- The box produced by a status change: new status, position cleared exactly
when leaving `"loaded"`, `updatedAt` bumped. -/
def statusUpdatedBox (box : Box) (s : String) (now : Nat) : Box :=
  { box with status := s,
             position := if box.status = "loaded" && s != "loaded" then none else box.position,
             updatedAt := now }

/-- The box produced by a position change: position set, status set when the
argument is supplied and truthy, `updatedAt` bumped. -/
def positionUpdatedBox (box : Box) (p : BoxPosition) (s : Option String) (now : Nat) : Box :=
  { box with position := some p,
             status := match s with
                       | some v => if v = "" then box.status else v
                       | none => box.status,
             updatedAt := now }

/-- The activity appended by a position change. -/
def positionActivity (aid : Nat) (id : Nat) (boxNumber : Nat) (p : BoxPosition)
    (s : Option String) (now : Nat) : Activity :=
  if s == some "loaded" then
    ⟨aid, some id, "loaded",
     "Box #" ++ toString boxNumber ++ " loaded onto truck (" ++ MemStorage.posTriple p ++ ")", now⟩
  else
    ⟨aid, some id, "moved",
     "Box #" ++ toString boxNumber ++ " moved to position " ++ MemStorage.posTriple p, now⟩

theorem memUpdateBox_found (st : MemStorage) {id : Nat} (d : BoxUpdate)
    (now : Nat) {box : Box} (h : st.getBox id = some box) :
    st.updateBox id d now =
      (some (mergedBox box d now),
       { st with
         boxes := st.boxes.map (fun b => if b.id == id then mergedBox box d now else b),
         activities := st.activities ++
           [⟨st.activityCounter, some id, "updated",
             "Box #" ++ toString box.boxNumber ++ " updated", now⟩],
         activityCounter := st.activityCounter + 1 }) := by
  simp only [MemStorage.updateBox, h, MemStorage.createActivity, mergedBox]

theorem memUpdateBoxStatus_found (st : MemStorage) {id : Nat} (s : String)
    (now : Nat) {box : Box} (h : st.getBox id = some box) :
    st.updateBoxStatus id s now =
      (some (statusUpdatedBox box s now),
       { st with
         boxes := st.boxes.map (fun b => if b.id == id then statusUpdatedBox box s now else b),
         activities := st.activities ++
           [⟨st.activityCounter, some id, s.toLower,
             "Box #" ++ toString box.boxNumber ++ " marked as " ++ s, now⟩],
         activityCounter := st.activityCounter + 1 }) := by
  simp only [MemStorage.updateBoxStatus, h, MemStorage.createActivity, statusUpdatedBox]

theorem memUpdateBoxPosition_found (st : MemStorage) {id : Nat}
    (p : BoxPosition) (s : Option String) (now : Nat) {box : Box}
    (h : st.getBox id = some box) :
    st.updateBoxPosition id p s now =
      (some (positionUpdatedBox box p s now),
       { st with
         boxes := st.boxes.map (fun b => if b.id == id then positionUpdatedBox box p s now else b),
         activities := st.activities ++
           [positionActivity st.activityCounter id box.boxNumber p s now],
         activityCounter := st.activityCounter + 1 }) := by
  by_cases hs : s == some "loaded"
  · simp only [MemStorage.updateBoxPosition, h, MemStorage.createActivity,
      positionUpdatedBox, positionActivity, if_pos hs]
  · simp only [MemStorage.updateBoxPosition, h, MemStorage.createActivity,
      positionUpdatedBox, positionActivity, if_neg hs]

theorem memDeleteBox_found (st : MemStorage) {id : Nat} (now : Nat)
    {box : Box} (h : st.getBox id = some box) :
    st.deleteBox id now =
      (true,
       { st with
         boxes := st.boxes.filter (fun b => b.id != id),
         qrCodes := st.qrCodes.filter (fun q => q.boxId != id),
         activities := st.activities ++
           [⟨st.activityCounter, some id, "deleted",
             "Box #" ++ toString box.boxNumber ++ " deleted", now⟩],
         activityCounter := st.activityCounter + 1 }) := by
  simp only [MemStorage.deleteBox, h, MemStorage.createActivity]

theorem memCreateBox_eq (st : MemStorage) (d : InsertBox) (now : Nat) :
    st.createBox d now =
      (⟨st.boxCounter, d.boxNumber, d.owner, d.room, d.contents,
        coerceStatus d.status, none, now, now⟩,
       { st with
         boxes := st.boxes ++
           [⟨st.boxCounter, d.boxNumber, d.owner, d.room, d.contents,
             coerceStatus d.status, none, now, now⟩],
         boxCounter := st.boxCounter + 1,
         activities := st.activities ++
           [⟨st.activityCounter, some st.boxCounter, "created",
             "Box #" ++ toString d.boxNumber ++ " created", now⟩],
         activityCounter := st.activityCounter + 1 }) := by
  simp only [MemStorage.createBox, MemStorage.createActivity]

theorem any_id_map_replace (nb : Box) {l : List Box} {id : Nat} {b : Box}
    (hb : b ∈ l) (hbid : (b.id == id) = true) (hnb : nb.id = id) :
    ((l.map (fun x => if x.id == id then nb else x)).any (fun x => x.id == id)) = true := by
  rw [List.any_eq_true]
  have himg : (fun (x : Box) => if x.id == id then nb else x) b = nb := by
    simp only [if_pos hbid]
  exact ⟨nb, List.mem_map.mpr ⟨b, hb, himg⟩, by simp [hnb]⟩

theorem dbCreateActivity_ok (st : DatabaseStorage) (bid : Nat)
    (ty descr : String) (now : Nat)
    (h : (st.boxes.any (fun b => b.id == bid)) = true) :
    st.createActivity (some bid) ty descr now =
      DbResult.ok (⟨st.activitySerial, some bid, ty, descr, now⟩,
        { st with
          activities := st.activities ++
            [⟨st.activitySerial, some bid, ty, descr, now⟩],
          activitySerial := st.activitySerial + 1 }) := by
  simp only [DatabaseStorage.createActivity, h, if_pos]

theorem dbUpdateBox_found (st : DatabaseStorage) {id : Nat}
    (d : BoxUpdate) (now : Nat) {box : Box} (h : st.getBox id = some box) :
    st.updateBox id d now =
      (DbResult.ok (some (mergedBox box d now)),
       { st with
         boxes := st.boxes.map (fun b => if b.id == id then mergedBox box d now else b),
         activities := st.activities ++
           [⟨st.activitySerial, some id, "updated",
             "Box #" ++ toString box.boxNumber ++ " updated", now⟩],
         activitySerial := st.activitySerial + 1 }) := by
  have hmem := List.mem_of_find?_eq_some h
  have hid := List.find?_some h
  have hany := any_id_map_replace (mergedBox box d now) hmem hid
    (by simp [mergedBox]; exact (eq_of_beq hid))
  simp only [DatabaseStorage.updateBox, h, mergedBox] at hany ⊢
  rw [dbCreateActivity_ok _ _ _ _ _ hany]

theorem dbUpdateBoxStatus_found (st : DatabaseStorage) {id : Nat}
    (s : String) (now : Nat) {box : Box} (h : st.getBox id = some box) :
    st.updateBoxStatus id s now =
      (DbResult.ok (some (statusUpdatedBox box s now)),
       { st with
         boxes := st.boxes.map (fun b => if b.id == id then statusUpdatedBox box s now else b),
         activities := st.activities ++
           [⟨st.activitySerial, some id, s.toLower,
             "Box #" ++ toString box.boxNumber ++ " marked as " ++ s, now⟩],
         activitySerial := st.activitySerial + 1 }) := by
  have hmem := List.mem_of_find?_eq_some h
  have hid := List.find?_some h
  have hany := any_id_map_replace (statusUpdatedBox box s now) hmem hid
    (by simp [statusUpdatedBox]; exact (eq_of_beq hid))
  simp only [DatabaseStorage.updateBoxStatus, h, statusUpdatedBox] at hany ⊢
  rw [dbCreateActivity_ok _ _ _ _ _ hany]

theorem dbUpdateBoxPosition_found (st : DatabaseStorage) {id : Nat}
    (p : BoxPosition) (s : Option String) (now : Nat) {box : Box}
    (h : st.getBox id = some box) :
    st.updateBoxPosition id p s now =
      (DbResult.ok (some (positionUpdatedBox box p s now)),
       { st with
         boxes := st.boxes.map (fun b => if b.id == id then positionUpdatedBox box p s now else b),
         activities := st.activities ++
           [positionActivity st.activitySerial id box.boxNumber p s now],
         activitySerial := st.activitySerial + 1 }) := by
  have hmem := List.mem_of_find?_eq_some h
  have hid := List.find?_some h
  have hany := any_id_map_replace (positionUpdatedBox box p s now) hmem hid
    (by simp [positionUpdatedBox]; exact (eq_of_beq hid))
  by_cases hs : s == some "loaded"
  · simp only [DatabaseStorage.updateBoxPosition, h, positionUpdatedBox,
      positionActivity, if_pos hs] at hany ⊢
    rw [dbCreateActivity_ok _ _ _ _ _ hany]
  · simp only [DatabaseStorage.updateBoxPosition, h, positionUpdatedBox,
      positionActivity, if_neg hs] at hany ⊢
    rw [dbCreateActivity_ok _ _ _ _ _ hany]

theorem dbCreateBox_eq (st : DatabaseStorage) (d : InsertBox) (now : Nat) :
    st.createBox d now =
      (DbResult.ok ⟨st.boxSerial, d.boxNumber, d.owner, d.room, d.contents,
         coerceStatus d.status, none, now, now⟩,
       { st with
         boxes := st.boxes ++
           [⟨st.boxSerial, d.boxNumber, d.owner, d.room, d.contents,
             coerceStatus d.status, none, now, now⟩],
         boxSerial := st.boxSerial + 1,
         activities := st.activities ++
           [⟨st.activitySerial, some st.boxSerial, "created",
             "Box #" ++ toString d.boxNumber ++ " created", now⟩],
         activitySerial := st.activitySerial + 1 }) := by
  have hany : (((st.boxes ++
      [(⟨st.boxSerial, d.boxNumber, d.owner, d.room, d.contents,
        coerceStatus d.status, none, now, now⟩ : Box)]).any
        (fun b => b.id == st.boxSerial))) = true := by
    rw [List.any_eq_true]
    exact ⟨_, List.mem_append_right _ (List.mem_singleton_self _), by simp⟩
  simp only [DatabaseStorage.createBox] at hany ⊢
  rw [dbCreateActivity_ok _ _ _ _ _ hany]

theorem dbDeleteBox_found (st : DatabaseStorage) {id : Nat}
    (now : Nat) {box : Box} (h : st.getBox id = some box) :
    st.deleteBox id now =
      (DbResult.fkViolation,
       { st with
         boxes := st.boxes.filter (fun b => b.id != id),
         activities := st.activities.filter (fun a => a.boxId != some id),
         qrCodes := st.qrCodes.filter (fun q => q.boxId != id) }) := by
  have hnone : (((st.boxes.filter (fun b => b.id != id)).any
      (fun b => b.id == id))) = false := by
    rw [List.any_eq_false]
    intro b hb
    have := List.of_mem_filter hb
    simpa using this
  simp [DatabaseStorage.deleteBox, h, DatabaseStorage.createActivity, hnone]

/-- The concrete-scenario box payload from the spec. -/
def sampleInsert : InsertBox := ⟨1, "Alex", "Kitchen", "Mugs", some "packed"⟩

/-- A second box payload, used for ordering examples. -/
def sampleInsert2 : InsertBox := ⟨2, "Blake", "Office", "Books", some "staging"⟩

/-- The concrete-scenario truck position from the spec. -/
def samplePos : BoxPosition := ⟨"front", "left", "high"⟩

/-- In-memory store after creating one box at time 1. -/
def memSt1 : MemStorage := (MemStorage.empty.createBox sampleInsert 1).2

/-- In-memory store where box 1 is loaded at `samplePos` at time 2. -/
def memLoaded : MemStorage := (memSt1.updateBoxPosition 1 samplePos (some "loaded") 2).2

/-- Database store after creating one box at time 1. -/
def dbSt1 : DatabaseStorage := (DatabaseStorage.empty.createBox sampleInsert 1).2

/-- Database store where box 1 is loaded at `samplePos` at time 2. -/
def dbLoaded : DatabaseStorage := (dbSt1.updateBoxPosition 1 samplePos (some "loaded") 2).2

/-- The value of box 1 in `memLoaded` and `dbLoaded`. -/
def loadedBox : Box := ⟨1, 1, "Alex", "Kitchen", "Mugs", "loaded", some samplePos, 1, 2⟩

/-- C1: in both the in-memory and the database backend, `updateBoxStatus` on
a box whose current status is "loaded" and whose position is non-null, with
any new status other than "loaded", yields a box with position null; on a
box whose current status is not "loaded" it never changes the position field
(a null position stays null). -/
theorem C1_updateBoxStatus_position_coupling
    (stm : MemStorage) (std : DatabaseStorage) (idm idd nm nd : Nat)
    (sm sd : String) (bm bd : Box)
    (hm : stm.getBox idm = some bm) (hd : std.getBox idd = some bd) :
    (∃ bm2 : Box, (stm.updateBoxStatus idm sm nm).1 = some bm2 ∧
      (bm.status = "loaded" → bm.position ≠ none → sm ≠ "loaded" → bm2.position = none) ∧
      (bm.status ≠ "loaded" → bm2.position = bm.position)) ∧
    (∃ bd2 : Box, (std.updateBoxStatus idd sd nd).1 = DbResult.ok (some bd2) ∧
      (bd.status = "loaded" → bd.position ≠ none → sd ≠ "loaded" → bd2.position = none) ∧
      (bd.status ≠ "loaded" → bd2.position = bd.position)) := by
  constructor
  · refine ⟨statusUpdatedBox bm sm nm,
      by rw [memUpdateBoxStatus_found stm sm nm hm], ?_, ?_⟩
    · intro h1 _ h2
      simp [statusUpdatedBox, h1, h2]
    · intro h1
      simp [statusUpdatedBox, h1]
  · refine ⟨statusUpdatedBox bd sd nd,
      by rw [dbUpdateBoxStatus_found std sd nd hd], ?_, ?_⟩
    · intro h1 _ h2
      simp [statusUpdatedBox, h1, h2]
    · intro h1
      simp [statusUpdatedBox, h1]

/-- C1 witness: the loaded box 1 with non-null position, moved to status
"out" at time 3, in both backends. -/
theorem C1_witness_loaded_to_out :
    (memLoaded.getBox 1 = some loadedBox ∧ dbLoaded.getBox 1 = some loadedBox) ∧
    ((∃ bm2 : Box, (memLoaded.updateBoxStatus 1 "out" 3).1 = some bm2 ∧
      (loadedBox.status = "loaded" → loadedBox.position ≠ none → "out" ≠ "loaded" → bm2.position = none) ∧
      (loadedBox.status ≠ "loaded" → bm2.position = loadedBox.position)) ∧
     (∃ bd2 : Box, (dbLoaded.updateBoxStatus 1 "out" 3).1 = DbResult.ok (some bd2) ∧
      (loadedBox.status = "loaded" → loadedBox.position ≠ none → "out" ≠ "loaded" → bd2.position = none) ∧
      (loadedBox.status ≠ "loaded" → bd2.position = loadedBox.position))) :=
  ⟨⟨by decide, by decide⟩,
   C1_updateBoxStatus_position_coupling memLoaded dbLoaded 1 1 3 3 "out" "out"
     loadedBox loadedBox (by decide) (by decide)⟩

/-- Exactly one activity, referencing box id `bid`, was appended to the log. -/
def appendsOne (old new : List Activity) (bid : Nat) : Prop :=
  ∃ a : Activity, new = old ++ [a] ∧ a.boxId = some bid

/-- The value of box 1 in `memSt1` and `dbSt1`. -/
def packedBox : Box := ⟨1, 1, "Alex", "Kitchen", "Mugs", "packed", none, 1, 1⟩

/-- C2: in both backends every successful box-mutating operation (create,
update, status-change, position-change, delete) appends exactly one activity
referencing that box's id — so the global activity count grows by exactly
one — and QR-code and owner operations append none.  A database `deleteBox`
that returns normally returns `false` (absent id) and appends nothing; on an
existing box it fails at the foreign-key check (see the C7 analysis). -/
theorem C2_activity_append_discipline
    (stm : MemStorage) (std : DatabaseStorage) (idm idd : Nat) (bm bd : Box)
    (d : InsertBox) (u : BoxUpdate) (p : BoxPosition) (so : Option String)
    (s : String) (nm nd qbid oid : Nat) (qdata onm ocl : String)
    (oname ocolor : Option String)
    (hm : stm.getBox idm = some bm) (hd : std.getBox idd = some bd) :
    (appendsOne stm.activities (stm.createBox d nm).2.activities (stm.createBox d nm).1.id ∧
     appendsOne stm.activities (stm.updateBox idm u nm).2.activities idm ∧
     appendsOne stm.activities (stm.updateBoxStatus idm s nm).2.activities idm ∧
     appendsOne stm.activities (stm.updateBoxPosition idm p so nm).2.activities idm ∧
     appendsOne stm.activities (stm.deleteBox idm nm).2.activities idm ∧
     (stm.createQrCode qbid qdata nm).2.activities = stm.activities ∧
     (stm.createOwner onm ocl nm).2.activities = stm.activities ∧
     (stm.updateOwner oid oname ocolor nm).2.activities = stm.activities ∧
     (stm.deleteOwner oid).2.activities = stm.activities) ∧
    ((∃ b2 : Box, (std.createBox d nd).1 = DbResult.ok b2 ∧
        appendsOne std.activities (std.createBox d nd).2.activities b2.id) ∧
     appendsOne std.activities (std.updateBox idd u nd).2.activities idd ∧
     appendsOne std.activities (std.updateBoxStatus idd s nd).2.activities idd ∧
     appendsOne std.activities (std.updateBoxPosition idd p so nd).2.activities idd ∧
     (∀ (id2 : Nat) (b : Bool), (std.deleteBox id2 nd).1 = DbResult.ok b →
        b = false ∧ (std.deleteBox id2 nd).2.activities = std.activities) ∧
     (std.createQrCode qbid qdata nd).2.activities = std.activities ∧
     (std.createOwner onm ocl nd).2.activities = std.activities ∧
     (std.updateOwner oid oname ocolor nd).2.activities = std.activities ∧
     (std.deleteOwner oid).2.activities = std.activities) := by
  constructor
  · refine ⟨?_, ?_, ?_, ?_, ?_, rfl, rfl, ?_, ?_⟩
    · rw [memCreateBox_eq]
      exact ⟨_, rfl, rfl⟩
    · rw [memUpdateBox_found stm u nm hm]
      exact ⟨_, rfl, rfl⟩
    · rw [memUpdateBoxStatus_found stm s nm hm]
      exact ⟨_, rfl, rfl⟩
    · rw [memUpdateBoxPosition_found stm p so nm hm]
      refine ⟨_, rfl, ?_⟩
      unfold positionActivity
      split <;> rfl
    · rw [memDeleteBox_found stm nm hm]
      exact ⟨_, rfl, rfl⟩
    · unfold MemStorage.updateOwner
      cases hgo : stm.getOwner oid <;> simp
    · unfold MemStorage.deleteOwner
      cases hgo : stm.getOwner oid
      · rfl
      · dsimp only
        split <;> rfl
  · refine ⟨?_, ?_, ?_, ?_, ?_, rfl, rfl, ?_, ?_⟩
    · rw [dbCreateBox_eq]
      exact ⟨_, rfl, _, rfl, rfl⟩
    · rw [dbUpdateBox_found std u nd hd]
      exact ⟨_, rfl, rfl⟩
    · rw [dbUpdateBoxStatus_found std s nd hd]
      exact ⟨_, rfl, rfl⟩
    · rw [dbUpdateBoxPosition_found std p so nd hd]
      refine ⟨_, rfl, ?_⟩
      unfold positionActivity
      split <;> rfl
    · intro id2 b hb
      cases hg : std.getBox id2 with
      | none =>
        simp only [DatabaseStorage.deleteBox, hg] at hb ⊢
        cases hb
        exact ⟨rfl, trivial⟩
      | some box =>
        rw [dbDeleteBox_found std nd hg] at hb
        exact absurd hb (by simp)
    · unfold DatabaseStorage.updateOwner
      cases hgo : std.getOwner oid <;> simp
    · unfold DatabaseStorage.deleteOwner
      cases hgo : std.getOwner oid
      · rfl
      · dsimp only
        split <;> rfl

/-- A partial update touching only the contents field. -/
def sampleUpdate : BoxUpdate := ⟨none, none, none, some "Cups", none⟩

/-- C2 witness: the single-box stores at time 5, with concrete QR-code and
owner arguments. -/
theorem C2_witness :
    (memSt1.getBox 1 = some packedBox ∧ dbSt1.getBox 1 = some packedBox) ∧
    ((appendsOne memSt1.activities (memSt1.createBox sampleInsert2 5).2.activities
        (memSt1.createBox sampleInsert2 5).1.id ∧
      appendsOne memSt1.activities (memSt1.updateBox 1 sampleUpdate 5).2.activities 1 ∧
      appendsOne memSt1.activities (memSt1.updateBoxStatus 1 "staging" 5).2.activities 1 ∧
      appendsOne memSt1.activities (memSt1.updateBoxPosition 1 samplePos none 5).2.activities 1 ∧
      appendsOne memSt1.activities (memSt1.deleteBox 1 5).2.activities 1 ∧
      (memSt1.createQrCode 1 "boxtracker-1" 5).2.activities = memSt1.activities ∧
      (memSt1.createOwner "Alex" "#ff0000" 5).2.activities = memSt1.activities ∧
      (memSt1.updateOwner 1 none none 5).2.activities = memSt1.activities ∧
      (memSt1.deleteOwner 1).2.activities = memSt1.activities) ∧
     ((∃ b2 : Box, (dbSt1.createBox sampleInsert2 5).1 = DbResult.ok b2 ∧
        appendsOne dbSt1.activities (dbSt1.createBox sampleInsert2 5).2.activities b2.id) ∧
      appendsOne dbSt1.activities (dbSt1.updateBox 1 sampleUpdate 5).2.activities 1 ∧
      appendsOne dbSt1.activities (dbSt1.updateBoxStatus 1 "staging" 5).2.activities 1 ∧
      appendsOne dbSt1.activities (dbSt1.updateBoxPosition 1 samplePos none 5).2.activities 1 ∧
      (∀ (id2 : Nat) (b : Bool), (dbSt1.deleteBox id2 5).1 = DbResult.ok b →
        b = false ∧ (dbSt1.deleteBox id2 5).2.activities = dbSt1.activities) ∧
      (dbSt1.createQrCode 1 "boxtracker-1" 5).2.activities = dbSt1.activities ∧
      (dbSt1.createOwner "Alex" "#ff0000" 5).2.activities = dbSt1.activities ∧
      (dbSt1.updateOwner 1 none none 5).2.activities = dbSt1.activities ∧
      (dbSt1.deleteOwner 1).2.activities = dbSt1.activities)) :=
  ⟨⟨by decide, by decide⟩,
   C2_activity_append_discipline memSt1 dbSt1 1 1 packedBox packedBox sampleInsert2
     sampleUpdate samplePos none "staging" 5 5 1 1 "boxtracker-1" "Alex" "#ff0000"
     none none (by decide) (by decide)⟩

/-- Database store with an owner named "Alex" and a box whose owner field is
"alex" (same name up to letter case). -/
def dbMixedCase : DatabaseStorage :=
  ((DatabaseStorage.empty.createOwner "Alex" "#ff0000" 1).2.createBox
    ⟨1, "alex", "Kitchen", "Mugs", some "packed"⟩ 2).2

/-- In-memory store with an owner named "Alex" and a box whose owner field is
"alex". -/
def memMixedCase : MemStorage :=
  ((MemStorage.empty.createOwner "Alex" "#ff0000" 1).2.createBox
    ⟨1, "alex", "Kitchen", "Mugs", some "packed"⟩ 2).2

/-- The owner row shared by `dbMixedCase` and `memMixedCase`. -/
def alexOwner : Owner := ⟨1, "Alex", "#ff0000", 1, 1⟩

/-- C3 counterexample: in the database backend, with owner "Alex" and a box
owned by "alex" (a case-insensitive match), `deleteOwner` returns `true` and
the owner is no longer retrievable — the claim says it must return `false`
and keep the owner. -/
theorem C3_counterexample_db_case_sensitivity :
    (dbMixedCase.getOwner 1).map Owner.name = some "Alex" ∧
    dbMixedCase.boxes.map Box.owner = ["alex"] ∧
    (dbMixedCase.deleteOwner 1).1 = true ∧
    (dbMixedCase.deleteOwner 1).2.getOwner 1 = none := by
  refine ⟨by decide, by decide, by decide, by decide⟩

/-- C3 amended: the in-memory backend refuses owner deletion on a
case-insensitive owner-name match, leaving the state (and so the owner)
untouched; the database backend compares names exactly — it refuses only on
an exact match, and deletes the owner when no box's owner field equals the
name exactly, even if one matches up to letter case. -/
theorem C3_owner_deletion_guard_amended
    (stm : MemStorage) (std : DatabaseStorage) (idm idd : Nat) (om od : Owner)
    (hm : stm.getOwner idm = some om) (hd : std.getOwner idd = some od) :
    ((∃ b ∈ stm.boxes, b.owner.toLower = om.name.toLower) →
      stm.deleteOwner idm = (false, stm)) ∧
    ((∃ b ∈ std.boxes, b.owner = od.name) →
      std.deleteOwner idd = (false, std)) ∧
    ((∀ b ∈ std.boxes, b.owner ≠ od.name) →
      (std.deleteOwner idd).1 = true ∧ (std.deleteOwner idd).2.getOwner idd = none) := by
  refine ⟨?_, ?_, ?_⟩
  · rintro ⟨b, hb, hmatch⟩
    have hmem : b ∈ stm.boxes.filter (fun x => x.owner.toLower == om.name.toLower) :=
      List.mem_filter.mpr ⟨hb, by simp [hmatch]⟩
    have hlen := List.length_pos_of_mem hmem
    simp only [MemStorage.deleteOwner, hm]
    rw [if_pos hlen]
  · rintro ⟨b, hb, hmatch⟩
    have hmem : b ∈ std.boxes.filter (fun x => x.owner == od.name) :=
      List.mem_filter.mpr ⟨hb, by simp [hmatch]⟩
    have hlen := List.length_pos_of_mem hmem
    simp only [DatabaseStorage.deleteOwner, hd]
    rw [if_pos hlen]
  · intro h
    have hnil : std.boxes.filter (fun b => b.owner == od.name) = [] := by
      rw [List.filter_eq_nil_iff]
      intro b hb
      simp [h b hb]
    have hfind : (std.owners.filter (fun o => o.id != idd)).find?
        (fun o => o.id == idd) = none := by
      rw [List.find?_eq_none]
      intro o ho
      have := List.of_mem_filter ho
      simpa using this
    simp only [DatabaseStorage.deleteOwner, hd, hnil]
    exact ⟨by simp, by simp [DatabaseStorage.getOwner, hfind]⟩

/-- C3 witness: the mixed-case stores; the in-memory guard refuses, and the
exact-match clauses of the database backend are instantiated. -/
theorem C3_witness :
    (memMixedCase.getOwner 1 = some alexOwner ∧ dbMixedCase.getOwner 1 = some alexOwner) ∧
    (((∃ b ∈ memMixedCase.boxes, b.owner.toLower = alexOwner.name.toLower) →
        memMixedCase.deleteOwner 1 = (false, memMixedCase)) ∧
     ((∃ b ∈ dbMixedCase.boxes, b.owner = alexOwner.name) →
        dbMixedCase.deleteOwner 1 = (false, dbMixedCase)) ∧
     ((∀ b ∈ dbMixedCase.boxes, b.owner ≠ alexOwner.name) →
        (dbMixedCase.deleteOwner 1).1 = true ∧
        (dbMixedCase.deleteOwner 1).2.getOwner 1 = none)) :=
  ⟨⟨by decide, by decide⟩,
   C3_owner_deletion_guard_amended memMixedCase dbMixedCase 1 1 alexOwner alexOwner
     (by decide) (by decide)⟩

theorem coerceStatus_of_valid {s : String} (h : s ∈ boxStatusValues) :
    coerceStatus (some s) = s := by
  simp [coerceStatus, h]

theorem coerceStatus_of_invalid {s : String} (h : s ∉ boxStatusValues) :
    coerceStatus (some s) = "packed" := by
  simp [coerceStatus, h]

/-- C4: in both backends, `createBox` coerces a missing or invalid status to
"packed" and keeps a valid one; the returned box has a null position and
equal created/updated timestamps; the box is persisted; and one
`"created"`-type activity referencing the new box id is appended. -/
theorem C4_createBox_status_coercion
    (stm : MemStorage) (std : DatabaseStorage) (d : InsertBox) (nm nd : Nat) :
    ((∀ s : String, d.status = some s → s ∈ boxStatusValues →
        (stm.createBox d nm).1.status = s) ∧
     (∀ s : String, d.status = some s → s ∉ boxStatusValues →
        (stm.createBox d nm).1.status = "packed") ∧
     (d.status = none → (stm.createBox d nm).1.status = "packed") ∧
     (stm.createBox d nm).1.position = none ∧
     (stm.createBox d nm).1.createdAt = (stm.createBox d nm).1.updatedAt ∧
     (stm.createBox d nm).2.boxes = stm.boxes ++ [(stm.createBox d nm).1] ∧
     (∃ a : Activity, (stm.createBox d nm).2.activities = stm.activities ++ [a] ∧
        a.type = "created" ∧ a.boxId = some (stm.createBox d nm).1.id)) ∧
    (∃ b2 : Box, (std.createBox d nd).1 = DbResult.ok b2 ∧
     (∀ s : String, d.status = some s → s ∈ boxStatusValues → b2.status = s) ∧
     (∀ s : String, d.status = some s → s ∉ boxStatusValues → b2.status = "packed") ∧
     (d.status = none → b2.status = "packed") ∧
     b2.position = none ∧
     b2.createdAt = b2.updatedAt ∧
     (std.createBox d nd).2.boxes = std.boxes ++ [b2] ∧
     (∃ a : Activity, (std.createBox d nd).2.activities = std.activities ++ [a] ∧
        a.type = "created" ∧ a.boxId = some b2.id)) := by
  constructor
  · rw [memCreateBox_eq]
    refine ⟨?_, ?_, ?_, rfl, rfl, rfl, ⟨_, rfl, rfl, rfl⟩⟩
    · intro s hs hv
      simp [hs, coerceStatus_of_valid hv]
    · intro s hs hv
      simp [hs, coerceStatus_of_invalid hv]
    · intro hs
      simp [hs, coerceStatus]
  · rw [dbCreateBox_eq]
    refine ⟨_, rfl, ?_, ?_, ?_, rfl, rfl, rfl, ⟨_, rfl, rfl, rfl⟩⟩
    · intro s hs hv
      simp [hs, coerceStatus_of_valid hv]
    · intro s hs hv
      simp [hs, coerceStatus_of_invalid hv]
    · intro hs
      simp [hs, coerceStatus]

/-- C4 witness: creating a box with the invalid status "boxed" at time 7 in
both backends (instantiating the invalid-status clause; the valid and
missing clauses are instantiated vacuously-true-free via their premises). -/
theorem C4_witness :
    ((∀ s : String, (some "boxed" : Option String) = some s → s ∈ boxStatusValues →
        ((MemStorage.empty.createBox ⟨3, "Alex", "Den", "Games", some "boxed"⟩ 7).1).status = s) ∧
     (∀ s : String, (some "boxed" : Option String) = some s → s ∉ boxStatusValues →
        ((MemStorage.empty.createBox ⟨3, "Alex", "Den", "Games", some "boxed"⟩ 7).1).status = "packed") ∧
     ((some "boxed" : Option String) = none →
        ((MemStorage.empty.createBox ⟨3, "Alex", "Den", "Games", some "boxed"⟩ 7).1).status = "packed") ∧
     ((MemStorage.empty.createBox ⟨3, "Alex", "Den", "Games", some "boxed"⟩ 7).1).position = none ∧
     ((MemStorage.empty.createBox ⟨3, "Alex", "Den", "Games", some "boxed"⟩ 7).1).createdAt =
       ((MemStorage.empty.createBox ⟨3, "Alex", "Den", "Games", some "boxed"⟩ 7).1).updatedAt ∧
     (MemStorage.empty.createBox ⟨3, "Alex", "Den", "Games", some "boxed"⟩ 7).2.boxes =
       MemStorage.empty.boxes ++ [(MemStorage.empty.createBox ⟨3, "Alex", "Den", "Games", some "boxed"⟩ 7).1] ∧
     (∃ a : Activity,
        (MemStorage.empty.createBox ⟨3, "Alex", "Den", "Games", some "boxed"⟩ 7).2.activities =
          MemStorage.empty.activities ++ [a] ∧
        a.type = "created" ∧
        a.boxId = some ((MemStorage.empty.createBox ⟨3, "Alex", "Den", "Games", some "boxed"⟩ 7).1).id)) ∧
    (∃ b2 : Box,
     (DatabaseStorage.empty.createBox ⟨3, "Alex", "Den", "Games", some "boxed"⟩ 7).1 = DbResult.ok b2 ∧
     (∀ s : String, (some "boxed" : Option String) = some s → s ∈ boxStatusValues → b2.status = s) ∧
     (∀ s : String, (some "boxed" : Option String) = some s → s ∉ boxStatusValues → b2.status = "packed") ∧
     ((some "boxed" : Option String) = none → b2.status = "packed") ∧
     b2.position = none ∧
     b2.createdAt = b2.updatedAt ∧
     (DatabaseStorage.empty.createBox ⟨3, "Alex", "Den", "Games", some "boxed"⟩ 7).2.boxes =
       DatabaseStorage.empty.boxes ++ [b2] ∧
     (∃ a : Activity,
        (DatabaseStorage.empty.createBox ⟨3, "Alex", "Den", "Games", some "boxed"⟩ 7).2.activities =
          DatabaseStorage.empty.activities ++ [a] ∧
        a.type = "created" ∧ a.boxId = some b2.id)) :=
  C4_createBox_status_coercion MemStorage.empty DatabaseStorage.empty
    ⟨3, "Alex", "Den", "Games", some "boxed"⟩ 7 7

/-- A partial update carrying a status string that is not one of the six
valid enum values. -/
def invalidStatusUpdate : BoxUpdate := ⟨none, none, none, none, some "bogus"⟩

/-- C5 counterexample: `updateBox` with the invalid status "bogus" stores
and returns "bogus" verbatim — the `as BoxStatus` cast performs no runtime
re-coercion, so the invalid value is not replaced by a safe default. -/
theorem C5_counterexample_no_recoercion :
    ((memSt1.updateBox 1 invalidStatusUpdate 5).1).map Box.status = some "bogus" ∧
    ((memSt1.updateBox 1 invalidStatusUpdate 5).2.getBox 1).map Box.status = some "bogus" ∧
    ((dbSt1.updateBox 1 invalidStatusUpdate 5).2.getBox 1).map Box.status = some "bogus" ∧
    "bogus" ∉ boxStatusValues := by
  refine ⟨by decide, by decide, by decide, by decide⟩

/-- The merge contract of `updateBox`: provided fields land, missing fields
are kept, the status is stored as given, id/position/createdAt are
unchanged, `updatedAt` is bumped. -/
def MergeSpec (box : Box) (d : BoxUpdate) (now : Nat) (b2 : Box) : Prop :=
  (∀ x, d.boxNumber = some x → b2.boxNumber = x) ∧
  (d.boxNumber = none → b2.boxNumber = box.boxNumber) ∧
  (∀ x, d.owner = some x → b2.owner = x) ∧
  (d.owner = none → b2.owner = box.owner) ∧
  (∀ x, d.room = some x → b2.room = x) ∧
  (d.room = none → b2.room = box.room) ∧
  (∀ x, d.contents = some x → b2.contents = x) ∧
  (d.contents = none → b2.contents = box.contents) ∧
  (∀ x, d.status = some x → b2.status = x) ∧
  (d.status = none → b2.status = box.status) ∧
  b2.id = box.id ∧ b2.position = box.position ∧
  b2.createdAt = box.createdAt ∧ b2.updatedAt = now

theorem mergedBox_spec (box : Box) (d : BoxUpdate) (now : Nat) :
    MergeSpec box d now (mergedBox box d now) := by
  refine ⟨?_, ?_, ?_, ?_, ?_, ?_, ?_, ?_, ?_, ?_, rfl, rfl, rfl, rfl⟩ <;>
    first
      | (intro x hx; simp [mergedBox, hx])
      | (intro hx; simp [mergedBox, hx])

theorem find?_map_replace {l : List Box} {id : Nat} {box nb : Box}
    (hfind : l.find? (fun b => b.id == id) = some box) (hnb : nb.id = id) :
    (l.map (fun b => if b.id == id then nb else b)).find? (fun b => b.id == id) =
      some nb := by
  induction l with
  | nil => simp at hfind
  | cons a l ih =>
    by_cases h : (a.id == id) = true
    · simp only [List.map_cons, if_pos h]
      simp [List.find?_cons, hnb]
    · have hfalse : (a.id == id) = false := by simpa using h
      simp only [List.find?_cons, hfalse] at hfind
      have hmap : (a :: l).map (fun b => if (b.id == id) = true then nb else b) =
          a :: l.map (fun b => if (b.id == id) = true then nb else b) := by
        rw [List.map_cons, if_neg h]
      rw [hmap, List.find?_cons, hfalse]
      exact ih hfind

/-- C5 amended: in both backends `updateBox` merges exactly the provided
fields into the existing record, keeps unprovided fields and the id,
position and createdAt, bumps updatedAt, stores a provided status exactly
as given (the `as BoxStatus` cast performs no runtime validation, so an
invalid status string is stored verbatim, not replaced by a default),
persists the merged box, appends an "updated" activity, and returns the
not-found signal for an absent id. -/
theorem C5_updateBox_merge_amended
    (stm : MemStorage) (std : DatabaseStorage) (idm idd idm2 idd2 : Nat)
    (d : BoxUpdate) (nm nd : Nat) (bm bd : Box)
    (hm : stm.getBox idm = some bm) (hd : std.getBox idd = some bd)
    (hm2 : stm.getBox idm2 = none) (hd2 : std.getBox idd2 = none) :
    ((∃ b2 : Box, (stm.updateBox idm d nm).1 = some b2 ∧ MergeSpec bm d nm b2 ∧
       (stm.updateBox idm d nm).2.getBox idm = some b2 ∧
       (∃ a : Activity, (stm.updateBox idm d nm).2.activities = stm.activities ++ [a] ∧
          a.type = "updated" ∧ a.boxId = some idm)) ∧
     stm.updateBox idm2 d nm = (none, stm)) ∧
    ((∃ b2 : Box, (std.updateBox idd d nd).1 = DbResult.ok (some b2) ∧
       MergeSpec bd d nd b2 ∧
       (std.updateBox idd d nd).2.getBox idd = some b2 ∧
       (∃ a : Activity, (std.updateBox idd d nd).2.activities = std.activities ++ [a] ∧
          a.type = "updated" ∧ a.boxId = some idd)) ∧
     std.updateBox idd2 d nd = (DbResult.ok none, std)) := by
  have hm' : stm.boxes.find? (fun b => b.id == idm) = some bm := hm
  have hd' : std.boxes.find? (fun b => b.id == idd) = some bd := hd
  have hmid : bm.id = idm := by
    have := List.find?_some hm'
    simpa using this
  have hdid : bd.id = idd := by
    have := List.find?_some hd'
    simpa using this
  refine ⟨⟨⟨mergedBox bm d nm, ?_, mergedBox_spec bm d nm, ?_, ?_⟩, ?_⟩,
          ⟨⟨mergedBox bd d nd, ?_, mergedBox_spec bd d nd, ?_, ?_⟩, ?_⟩⟩
  · rw [memUpdateBox_found stm d nm hm]
  · rw [memUpdateBox_found stm d nm hm]
    exact find?_map_replace hm' (by simp [mergedBox, hmid])
  · rw [memUpdateBox_found stm d nm hm]
    exact ⟨_, rfl, rfl, rfl⟩
  · simp [MemStorage.updateBox, hm2]
  · rw [dbUpdateBox_found std d nd hd]
  · rw [dbUpdateBox_found std d nd hd]
    exact find?_map_replace hd' (by simp [mergedBox, hdid])
  · rw [dbUpdateBox_found std d nd hd]
    exact ⟨_, rfl, rfl, rfl⟩
  · simp [DatabaseStorage.updateBox, hd2]

/-- C5 witness: box 1 updated with the invalid status "bogus" at time 5, and
absent id 99, in both backends. -/
theorem C5_witness :
    (memSt1.getBox 1 = some packedBox ∧ dbSt1.getBox 1 = some packedBox ∧
     memSt1.getBox 99 = none ∧ dbSt1.getBox 99 = none) ∧
    (((∃ b2 : Box, (memSt1.updateBox 1 invalidStatusUpdate 5).1 = some b2 ∧
        MergeSpec packedBox invalidStatusUpdate 5 b2 ∧
        (memSt1.updateBox 1 invalidStatusUpdate 5).2.getBox 1 = some b2 ∧
        (∃ a : Activity,
           (memSt1.updateBox 1 invalidStatusUpdate 5).2.activities = memSt1.activities ++ [a] ∧
           a.type = "updated" ∧ a.boxId = some 1)) ∧
      memSt1.updateBox 99 invalidStatusUpdate 5 = (none, memSt1)) ∧
     ((∃ b2 : Box, (dbSt1.updateBox 1 invalidStatusUpdate 5).1 = DbResult.ok (some b2) ∧
        MergeSpec packedBox invalidStatusUpdate 5 b2 ∧
        (dbSt1.updateBox 1 invalidStatusUpdate 5).2.getBox 1 = some b2 ∧
        (∃ a : Activity,
           (dbSt1.updateBox 1 invalidStatusUpdate 5).2.activities = dbSt1.activities ++ [a] ∧
           a.type = "updated" ∧ a.boxId = some 1)) ∧
      dbSt1.updateBox 99 invalidStatusUpdate 5 = (DbResult.ok none, dbSt1))) :=
  ⟨⟨by decide, by decide, by decide, by decide⟩,
   C5_updateBox_merge_amended memSt1 dbSt1 1 1 99 99 invalidStatusUpdate 5 5
     packedBox packedBox (by decide) (by decide) (by decide) (by decide)⟩

/-- In-memory store with box 1 created at time 1 and box 2 at time 2. -/
def memTwoBoxes : MemStorage := (memSt1.createBox sampleInsert2 2).2

/-- C6 counterexample: with two boxes whose updatedAt are 1 then 2, the
in-memory `getBoxes` returns them in insertion order `[1, 2]`, which is not
ordered most-recently-updated first. -/
theorem C6_counterexample_mem_unsorted :
    memTwoBoxes.getBoxes.map Box.updatedAt = [1, 2] ∧
    ¬ memTwoBoxes.getBoxes.Pairwise (fun a b => b.updatedAt ≤ a.updatedAt) := by
  refine ⟨by decide, by decide⟩

/-- C6 amended: the database backend returns all boxes ordered by updatedAt
descending; the in-memory backend returns all boxes in map insertion
(creation) order, with no sorting. -/
theorem C6_getBoxes_ordering_amended (stm : MemStorage) (std : DatabaseStorage) :
    stm.getBoxes = stm.boxes ∧
    std.getBoxes.Perm std.boxes ∧
    std.getBoxes.Pairwise (fun a b => b.updatedAt ≤ a.updatedAt) :=
  ⟨rfl, sortDescBy_perm Box.updatedAt std.boxes, sortDescBy_sorted Box.updatedAt std.boxes⟩

/-- In-memory store with box 1 and its QR code. -/
def memQr : MemStorage := (memSt1.createQrCode 1 "boxtracker-1" 3).2

/-- Database store with box 1 and its QR code. -/
def dbQr : DatabaseStorage := (dbSt1.createQrCode 1 "boxtracker-1" 3).2

/-- C7: evaluation at the failing input.  In the in-memory backend,
`deleteBox 1` removes the box and its QR code, appends the "deleted"
activity referencing the removed id, and returns true; a delete of the
absent id 99 returns false and changes nothing.  In the database backend
the same call removes the box (cascading away its QR code and activities)
but the subsequent "deleted"-activity insert violates the
`activities.box_id` foreign key, so the operation fails and no "deleted"
activity is ever recorded. -/
theorem C7_deleteBox_fk_divergence :
    (memQr.deleteBox 1 5).1 = true ∧
    (memQr.deleteBox 1 5).2.getBox 1 = none ∧
    (memQr.deleteBox 1 5).2.qrCodes = [] ∧
    (memQr.deleteBox 1 5).2.activities.map Activity.type = ["created", "deleted"] ∧
    ((memQr.deleteBox 1 5).2.activities.map Activity.boxId = [some 1, some 1]) ∧
    memQr.deleteBox 99 5 = (false, memQr) ∧
    (dbQr.deleteBox 1 5).1 = DbResult.fkViolation ∧
    (dbQr.deleteBox 1 5).2.getBox 1 = none ∧
    (dbQr.deleteBox 1 5).2.qrCodes = [] ∧
    (dbQr.deleteBox 1 5).2.activities = [] ∧
    dbQr.deleteBox 99 5 = (DbResult.ok false, dbQr) := by
  refine ⟨by decide, by decide, by decide, by decide, by decide, by decide,
    by decide, by decide, by decide, by decide, by decide⟩

/-- C8 counterexample: a limit of 0 is falsy in JavaScript, so
`getActivities(0)` returns all activities instead of none, in both
backends. -/
theorem C8_counterexample_zero_limit :
    memSt1.getActivities (some 0) = memSt1.getActivities none ∧
    (memSt1.getActivities (some 0)).length = 1 ∧
    dbSt1.getActivities (some 0) = dbSt1.getActivities none ∧
    (dbSt1.getActivities (some 0)).length = 1 := by
  refine ⟨by decide, by decide, by decide, by decide⟩

/-- C8 amended: in the in-memory backend (whose JavaScript sort is
spec-guaranteed stable), for a store whose activity log was built in id
order, `getActivities` with no limit returns all activities sorted by
timestamp descending with ties in insertion (id) order, and a positive
limit N returns exactly the first N entries of that ordering.  In the
database backend SQL fixes no order among equal timestamps, so only
order-insensitive consequences are claimed: the no-limit result is a
permutation of the log sorted by timestamp descending, and a positive
limit N yields min(N, total) activities, timestamp-descending, all drawn
from the log.  In both backends a limit of 0 is falsy and behaves like no
limit, returning everything. -/
theorem C8_getActivities_ordering_amended
    (stm : MemStorage) (std : DatabaseStorage) (n : Nat) (hn : n ≠ 0)
    (hidm : stm.activities.Pairwise (fun a b => a.id < b.id)) :
    ((stm.getActivities none).Perm stm.activities ∧
     (stm.getActivities none).Pairwise (StableDescAt Activity.timestamp Activity.id) ∧
     stm.getActivities (some n) = (stm.getActivities none).take n ∧
     stm.getActivities (some 0) = stm.getActivities none) ∧
    ((std.getActivities none).Perm std.activities ∧
     (std.getActivities none).Pairwise (fun a b => b.timestamp ≤ a.timestamp) ∧
     (std.getActivities (some n)).Pairwise (fun a b => b.timestamp ≤ a.timestamp) ∧
     (std.getActivities (some n)).length = min n std.activities.length ∧
     (∀ a ∈ std.getActivities (some n), a ∈ std.activities) ∧
     std.getActivities (some 0) = std.getActivities none) := by
  have hperm := sortDescBy_perm Activity.timestamp std.activities
  have hsorted := sortDescBy_sorted Activity.timestamp std.activities
  have hlim : std.getActivities (some n) =
      (sortDescBy Activity.timestamp std.activities).take n := by
    simp [DatabaseStorage.getActivities, hn]
  refine ⟨⟨sortDescBy_perm Activity.timestamp stm.activities,
           sortDescBy_stable Activity.timestamp Activity.id stm.activities hidm,
           ?_, rfl⟩,
          ⟨hperm, hsorted, ?_, ?_, ?_, rfl⟩⟩
  · simp [MemStorage.getActivities, hn]
  · rw [hlim]
    exact hsorted.sublist (List.take_sublist n _)
  · rw [hlim, List.length_take, hperm.length_eq]
  · intro a ha
    rw [hlim] at ha
    exact hperm.subset (List.mem_of_mem_take ha)

/-- C8 witness: the single-activity stores with limit 1. -/
theorem C8_witness :
    ((1 : Nat) ≠ 0 ∧
     memSt1.activities.Pairwise (fun a b => a.id < b.id)) ∧
    (((memSt1.getActivities none).Perm memSt1.activities ∧
      (memSt1.getActivities none).Pairwise (StableDescAt Activity.timestamp Activity.id) ∧
      memSt1.getActivities (some 1) = (memSt1.getActivities none).take 1 ∧
      memSt1.getActivities (some 0) = memSt1.getActivities none) ∧
     ((dbSt1.getActivities none).Perm dbSt1.activities ∧
      (dbSt1.getActivities none).Pairwise (fun a b => b.timestamp ≤ a.timestamp) ∧
      (dbSt1.getActivities (some 1)).Pairwise (fun a b => b.timestamp ≤ a.timestamp) ∧
      (dbSt1.getActivities (some 1)).length = min 1 dbSt1.activities.length ∧
      (∀ a ∈ dbSt1.getActivities (some 1), a ∈ dbSt1.activities) ∧
      dbSt1.getActivities (some 0) = dbSt1.getActivities none)) :=
  ⟨⟨by decide, by decide⟩,
   C8_getActivities_ordering_amended memSt1 dbSt1 1 (by decide) (by decide)⟩

theorem ne_empty_of_mem_boxStatusValues {s : String} (h : s ∈ boxStatusValues) :
    s ≠ "" := by
  simp only [boxStatusValues, List.mem_cons, List.mem_singleton] at h
  rcases h with rfl | rfl | rfl | rfl | rfl | rfl | h
  · decide
  · decide
  · decide
  · decide
  · decide
  · decide
  · simp at h

/-- C9: in both backends, `updateBoxPosition` on an existing box sets the
position unconditionally; a supplied (valid enum) status is set without
coercion and a missing one leaves the status unchanged; `updatedAt` is
bumped; and exactly one activity referencing the box is appended, of type
"loaded" exactly when the supplied status is "loaded" and "moved" otherwise
(including when no status is supplied), with a description containing the
position triple. -/
theorem C9_updateBoxPosition_behavior
    (stm : MemStorage) (std : DatabaseStorage) (idm idd nm nd : Nat)
    (p : BoxPosition) (so : Option String) (bm bd : Box)
    (hm : stm.getBox idm = some bm) (hd : std.getBox idd = some bd)
    (hso : ∀ s : String, so = some s → s ∈ boxStatusValues) :
    ((∃ b2 : Box, (stm.updateBoxPosition idm p so nm).1 = some b2 ∧
       b2.position = some p ∧
       (∀ s, so = some s → b2.status = s) ∧
       (so = none → b2.status = bm.status) ∧
       b2.updatedAt = nm) ∧
     (∃ a : Activity,
       (stm.updateBoxPosition idm p so nm).2.activities = stm.activities ++ [a] ∧
       a.boxId = some idm ∧
       (so = some "loaded" → a.type = "loaded") ∧
       (so ≠ some "loaded" → a.type = "moved") ∧
       (∃ pre suf, a.description = pre ++ MemStorage.posTriple p ++ suf))) ∧
    ((∃ b2 : Box, (std.updateBoxPosition idd p so nd).1 = DbResult.ok (some b2) ∧
       b2.position = some p ∧
       (∀ s, so = some s → b2.status = s) ∧
       (so = none → b2.status = bd.status) ∧
       b2.updatedAt = nd) ∧
     (∃ a : Activity,
       (std.updateBoxPosition idd p so nd).2.activities = std.activities ++ [a] ∧
       a.boxId = some idd ∧
       (so = some "loaded" → a.type = "loaded") ∧
       (so ≠ some "loaded" → a.type = "moved") ∧
       (∃ pre suf, a.description = pre ++ MemStorage.posTriple p ++ suf))) := by
  constructor
  · constructor
    · refine ⟨positionUpdatedBox bm p so nm,
        by rw [memUpdateBoxPosition_found stm p so nm hm], rfl, ?_, ?_, rfl⟩
      · intro s hs
        simp [positionUpdatedBox, hs, ne_empty_of_mem_boxStatusValues (hso s hs)]
      · intro hs
        simp [positionUpdatedBox, hs]
    · refine ⟨positionActivity stm.activityCounter idm bm.boxNumber p so nm,
        by rw [memUpdateBoxPosition_found stm p so nm hm], ?_, ?_, ?_, ?_⟩
      · unfold positionActivity
        split <;> rfl
      · intro hl
        simp [positionActivity, hl]
      · intro hl
        have hfalse : (so == some "loaded") = false := by simpa using hl
        simp only [positionActivity, hfalse]
        rw [if_neg (by simp)]
      · by_cases hl : (so == some "loaded") = true
        · refine ⟨"Box #" ++ toString bm.boxNumber ++ " loaded onto truck (", ")", ?_⟩
          simp only [positionActivity, if_pos hl]
        · refine ⟨"Box #" ++ toString bm.boxNumber ++ " moved to position ", "", ?_⟩
          simp only [positionActivity, if_neg hl]
          simp
  · constructor
    · refine ⟨positionUpdatedBox bd p so nd,
        by rw [dbUpdateBoxPosition_found std p so nd hd], rfl, ?_, ?_, rfl⟩
      · intro s hs
        simp [positionUpdatedBox, hs, ne_empty_of_mem_boxStatusValues (hso s hs)]
      · intro hs
        simp [positionUpdatedBox, hs]
    · refine ⟨positionActivity std.activitySerial idd bd.boxNumber p so nd,
        by rw [dbUpdateBoxPosition_found std p so nd hd], ?_, ?_, ?_, ?_⟩
      · unfold positionActivity
        split <;> rfl
      · intro hl
        simp [positionActivity, hl]
      · intro hl
        have hfalse : (so == some "loaded") = false := by simpa using hl
        simp only [positionActivity, hfalse]
        rw [if_neg (by simp)]
      · by_cases hl : (so == some "loaded") = true
        · refine ⟨"Box #" ++ toString bd.boxNumber ++ " loaded onto truck (", ")", ?_⟩
          simp only [positionActivity, if_pos hl]
        · refine ⟨"Box #" ++ toString bd.boxNumber ++ " moved to position ", "", ?_⟩
          simp only [positionActivity, if_neg hl]
          simp

/-- C9 witness: loading box 1 at `samplePos` with status "loaded" at time 5
in both backends. -/
theorem C9_witness :
    (memSt1.getBox 1 = some packedBox ∧ dbSt1.getBox 1 = some packedBox ∧
     (∀ s : String, (some "loaded" : Option String) = some s → s ∈ boxStatusValues)) ∧
    (((∃ b2 : Box, (memSt1.updateBoxPosition 1 samplePos (some "loaded") 5).1 = some b2 ∧
        b2.position = some samplePos ∧
        (∀ s, (some "loaded" : Option String) = some s → b2.status = s) ∧
        ((some "loaded" : Option String) = none → b2.status = packedBox.status) ∧
        b2.updatedAt = 5) ∧
      (∃ a : Activity,
        (memSt1.updateBoxPosition 1 samplePos (some "loaded") 5).2.activities =
          memSt1.activities ++ [a] ∧
        a.boxId = some 1 ∧
        ((some "loaded" : Option String) = some "loaded" → a.type = "loaded") ∧
        ((some "loaded" : Option String) ≠ some "loaded" → a.type = "moved") ∧
        (∃ pre suf, a.description = pre ++ MemStorage.posTriple samplePos ++ suf))) ∧
     ((∃ b2 : Box, (dbSt1.updateBoxPosition 1 samplePos (some "loaded") 5).1 =
          DbResult.ok (some b2) ∧
        b2.position = some samplePos ∧
        (∀ s, (some "loaded" : Option String) = some s → b2.status = s) ∧
        ((some "loaded" : Option String) = none → b2.status = packedBox.status) ∧
        b2.updatedAt = 5) ∧
      (∃ a : Activity,
        (dbSt1.updateBoxPosition 1 samplePos (some "loaded") 5).2.activities =
          dbSt1.activities ++ [a] ∧
        a.boxId = some 1 ∧
        ((some "loaded" : Option String) = some "loaded" → a.type = "loaded") ∧
        ((some "loaded" : Option String) ≠ some "loaded" → a.type = "moved") ∧
        (∃ pre suf, a.description = pre ++ MemStorage.posTriple samplePos ++ suf)))) :=
  ⟨⟨by decide, by decide,
    fun s hs => by
      injection hs with h
      rw [← h]
      decide⟩,
   C9_updateBoxPosition_behavior memSt1 dbSt1 1 1 5 5 samplePos (some "loaded")
     packedBox packedBox (by decide) (by decide)
     (fun s hs => by
       injection hs with h
       rw [← h]
       decide)⟩

/-- C10: in both backends, each of `updateBox`, `updateBoxPosition` and
`updateBoxStatus` called with an absent id returns the not-found signal,
appends no activity, and leaves the entire store state unchanged. -/
theorem C10_update_not_found_no_trace
    (stm : MemStorage) (std : DatabaseStorage) (idm idd : Nat)
    (d : BoxUpdate) (p : BoxPosition) (so : Option String) (s : String)
    (nm nd : Nat)
    (hm : stm.getBox idm = none) (hd : std.getBox idd = none) :
    (stm.updateBox idm d nm = (none, stm) ∧
     stm.updateBoxPosition idm p so nm = (none, stm) ∧
     stm.updateBoxStatus idm s nm = (none, stm)) ∧
    (std.updateBox idd d nd = (DbResult.ok none, std) ∧
     std.updateBoxPosition idd p so nd = (DbResult.ok none, std) ∧
     std.updateBoxStatus idd s nd = (DbResult.ok none, std)) := by
  refine ⟨⟨?_, ?_, ?_⟩, ⟨?_, ?_, ?_⟩⟩
  · simp [MemStorage.updateBox, hm]
  · simp [MemStorage.updateBoxPosition, hm]
  · simp [MemStorage.updateBoxStatus, hm]
  · simp [DatabaseStorage.updateBox, hd]
  · simp [DatabaseStorage.updateBoxPosition, hd]
  · simp [DatabaseStorage.updateBoxStatus, hd]

/-- C10 witness: the absent id 99 in the single-box stores. -/
theorem C10_witness :
    (memSt1.getBox 99 = none ∧ dbSt1.getBox 99 = none) ∧
    ((memSt1.updateBox 99 sampleUpdate 5 = (none, memSt1) ∧
      memSt1.updateBoxPosition 99 samplePos none 5 = (none, memSt1) ∧
      memSt1.updateBoxStatus 99 "out" 5 = (none, memSt1)) ∧
     (dbSt1.updateBox 99 sampleUpdate 5 = (DbResult.ok none, dbSt1) ∧
      dbSt1.updateBoxPosition 99 samplePos none 5 = (DbResult.ok none, dbSt1) ∧
      dbSt1.updateBoxStatus 99 "out" 5 = (DbResult.ok none, dbSt1))) :=
  ⟨⟨by decide, by decide⟩,
   C10_update_not_found_no_trace memSt1 dbSt1 99 99 sampleUpdate samplePos none
     "out" 5 5 (by decide) (by decide)⟩
